import Mathlib

/-!
Shallow embedding of src/chaincode.go (Hyperledger Fabric 0.6 style chaincode
managing media tracks, accounts and royalty payments), together with theorems
settling the specification claims about it.

Modelling conventions:
* The ledger (`shim.ChaincodeStub` state) is an association list from string
  keys to stored byte values.  `GetState` on the happy ledger never fails and
  returns `none` (nil bytes) for an absent key, which is the Fabric contract;
  the `err != nil` branches after `GetState`/`PutState` are therefore dead in
  the model and are noted in comments where they occur in the source.
* Stored byte blobs are modelled structurally by the inductive `Bytes`: a
  marshalled index (list of ids), a marshalled `Account`, a marshalled
  `Track`, or an opaque/raw string blob (caller-supplied JSON text, or bytes
  that do not parse).  `json.Unmarshal` into a given Go type is modelled by a
  partial decoding function on `Bytes`; a failed `json.Unmarshal` leaves the
  target variable at its Go zero value, which the embedding makes explicit
  wherever the source discards the unmarshal error.
* Go `int64` arithmetic wraps; the one multiplication in the code is wrapped
  with an explicit two's-complement reduction `i64`.
-/

namespace AllMedia

/-- Two's-complement reduction of an integer into the Go int64 range.
The constants are 2^63 and 2^64. -/
def i64 (x : Int) : Int :=
  (x + 9223372036854775808) % 18446744073709551616 - 9223372036854775808

/-- Go struct `Beneficiary` (chaincode.go lines 40-43). -/
structure Beneficiary where
  AccountId : String
  Percentage : Int
deriving DecidableEq

/-- Go struct `Track` (chaincode.go lines 31-38). -/
structure Track where
  Id : String
  Title : String
  Artist : String
  Beneficiaries : List Beneficiary
  Content : String
  Price : Int
deriving DecidableEq

/-- Go struct `Payment` (chaincode.go lines 52-57).  The source declares
`Recipient` and `Sender` as embedded `Account` values, but the only code that
ever constructs a `Payment` (`register_track`, lines 371-372) assigns account
identifier strings into these fields (ill-typed in the source as written);
the embedding records the identifiers, which is the only reading under which
those assignments mean anything. -/
structure Payment where
  Recipient : String
  Sender : String
  Amount : Int
  Completed : Bool
deriving DecidableEq

/-- Go struct `Account` (chaincode.go lines 45-50). -/
structure Account where
  Id : String
  Name : String
  Balance : Int
  PendingPayments : List Payment
deriving DecidableEq

/-- Contents of a stored byte value on the ledger. -/
inductive Bytes where
  | indexB (ids : List String)
  | accountB (a : Account)
  | trackB (t : Track)
  | rawB (s : String)
deriving DecidableEq

/-- The ledger state: an association list from keys to stored bytes. -/
abbrev Ledger : Type := List (String × Bytes)

/-- `stub.GetState`: `none` models nil bytes for an absent key.  Reads on the
happy ledger do not fail. -/
def getState : Ledger → String → Option Bytes
  | [], _ => none
  | (k', v) :: rest, k => if k' = k then some v else getState rest k

/-- `stub.PutState`: overwrite the binding for a key, or append a new one. -/
def putState : Ledger → String → Bytes → Ledger
  | [], k, v => [(k, v)]
  | (k', v') :: rest, k, v =>
      if k' = k then (k, v) :: rest else (k', v') :: putState rest k v

/-- `json.Unmarshal` of stored bytes into a `[]string` index. -/
def unmarshalIndex : Bytes → Option (List String)
  | .indexB ids => some ids
  | _ => none

/-- `json.Unmarshal` of stored bytes into an `Account`. -/
def unmarshalAccount : Bytes → Option Account
  | .accountB a => some a
  | _ => none

/-- `json.Unmarshal` of stored bytes into a `Track`. -/
def unmarshalTrack : Bytes → Option Track
  | .trackB t => some t
  | _ => none

/-- The Go zero value of `Account`, left in place when `json.Unmarshal`
fails and the error is discarded. -/
def zeroAccount : Account :=
  { Id := "", Name := "", Balance := 0, PendingPayments := [] }

/-- The Go zero value of `Track`. -/
def zeroTrack : Track :=
  { Id := "", Title := "", Artist := "", Beneficiaries := [], Content := "",
    Price := 0 }

/-- chaincode.go line 93. -/
def accountIndexStr : String := "_accounts"

/-- chaincode.go line 94. -/
def trackIndexStr : String := "_tracks"

/-- The index list the code obtains at lines 166-175 of `append_id`: read the
bytes at the index key and `json.Unmarshal` them discarding the error, so an
absent key and undecodable bytes alike yield the empty (nil) slice. -/
def indexList (s : Ledger) (indexStr : String) : List String :=
  match getState s indexStr with
  | none => []
  | some b => (unmarshalIndex b).getD []

/-- `append_id` (chaincode.go lines 164-193).  Reads the index (absent or
undecodable bytes are silently treated as empty, line 174 discards the
unmarshal error), optionally generates a new id by appending the decimal
string of the length + 1 (line 180, `strconv.Itoa`), appends the id and
writes the whole index back.  The `GetState`/`PutState` error branches
(lines 167-169, 187-189) are dead on the happy ledger. -/
def append_id (s : Ledger) (indexStr : String) (id : String) (create : Bool) :
    String × Ledger :=
  let tmpIndex := indexList s indexStr
  let newId := if create then id ++ Nat.repr (tmpIndex.length + 1) else id
  (newId, putState s indexStr (Bytes.indexB (tmpIndex ++ [newId])))

/-- Test harness: iterate `append_id` with `create = true` `n` times on the
same index key and candidate id, collecting the returned ids in call order. -/
def appendN (s : Ledger) (indexStr : String) (id : String) :
    Nat → Ledger × List String
  | 0 => (s, [])
  | n + 1 =>
      let r := append_id s indexStr id true
      let rest := appendN r.2 indexStr id n
      (rest.1, r.1 :: rest.2)

/-- `add_account` (chaincode.go lines 281-298): append `args[0]` verbatim to
the `_accounts` index and store the raw JSON payload `args[1]` under the
returned id.  Error branches are dead on the happy ledger. -/
def add_account (s : Ledger) (args : List String) : Ledger :=
  let r := append_id s accountIndexStr (args.getD 0 "") false
  putState r.2 r.1 (Bytes.rawB (args.getD 1 ""))

/-- `add_track` (chaincode.go lines 300-318): same as `add_account` but on
the `_tracks` index. -/
def add_track (s : Ledger) (args : List String) : Ledger :=
  let r := append_id s trackIndexStr (args.getD 0 "") false
  putState r.2 r.1 (Bytes.rawB (args.getD 1 ""))

/-- `register_track` (chaincode.go lines 322-389).  As written the Go
function does not compile (line 336 concatenates a string with bytes, line
357 references an undefined `track.Id`, lines 371-372 assign identifier
strings into `Account`-typed fields, line 381 binds the two results of
`json.Marshal` to one variable, line 387 appends a slice without spreading
it, and the function lacks a return statement); the embedding renders the
evident line-by-line reading.  Behaviour: load and unmarshal the track from
`args[0]` and the sender account from `args[1]` (failing when either does
not decode); then for each beneficiary in list order, load its account
discarding the unmarshal error (an unknown account silently becomes the zero
`Account`), compute `amount = percentage * price` (no division by 100),
build the payment, append it to the recipient and to `senderPayments`, and
put the recipient back under its (possibly empty) id.  The sender's
payments are appended only to the in-memory copy, which is never persisted;
the function falls off its end, embedded as success. -/
def register_track (s : Ledger) (args : List String) : Except String Ledger :=
  match (getState s (args.getD 0 "")).bind unmarshalTrack with
  | none => .error "Could not unmarshal track "
  | some t =>
    match (getState s (args.getD 1 "")).bind unmarshalAccount with
    | none => .error "Could not unmarshal account "
    | some account_sender =>
      let step := fun (acc : Ledger × List Payment) (beneficiary : Beneficiary) =>
        let account_recipient :=
          ((getState acc.1 beneficiary.AccountId).bind unmarshalAccount).getD
            zeroAccount
        let amount := i64 (beneficiary.Percentage * t.Price)
        let pendingPayment : Payment :=
          { Recipient := account_recipient.Id, Sender := account_sender.Id,
            Amount := amount, Completed := false }
        let account_recipient :=
          { account_recipient with
              PendingPayments :=
                account_recipient.PendingPayments ++ [pendingPayment] }
        (putState acc.1 account_recipient.Id (Bytes.accountB account_recipient),
         acc.2 ++ [pendingPayment])
      let r := t.Beneficiaries.foldl step (s, [])
      let _account_sender :=
        { account_sender with
            PendingPayments := account_sender.PendingPayments ++ r.2 }
      .ok r.1

/-- `Invoke` (chaincode.go lines 105-119).  Note that the dispatcher routes
the invocation name "add_account" to `add_track` (line 111). -/
def Invoke (s : Ledger) (function : String) (args : List String) :
    Except String Ledger :=
  if function = "init" then .ok s
  else if function = "add_account" then .ok (add_track s args)
  else if function = "add_track" then .ok (add_track s args)
  else if function = "register_track" then register_track s args
  else .error "Received unknown invoke function name"

/-- `get_account` (chaincode.go lines 395-405): return the raw bytes at the
key.  `GetState` reports no error for an absent key, so the function
succeeds with nil bytes (`none`) for a never-written identifier. -/
def get_account (s : Ledger) (userID : String) :
    Except String (Option Bytes) :=
  .ok (getState s userID)

/-- `get_track` (chaincode.go lines 407-421): return the raw bytes at the
key `args[1]`; absent keys succeed with nil bytes, as in `get_account`. -/
def get_track (s : Ledger) (args : List String) :
    Except String (Option Bytes) :=
  .ok (getState s (args.getD 1 ""))

/-- `get_all_tracks` (chaincode.go lines 423-460).  The unmarshal of the
index bytes IS checked here (line 436), so an absent index key (nil bytes)
or undecodable index bytes both return the error.  The loop at line 442
ranges over `tracks` — the result slice, declared just above and still nil —
instead of `trackIndex`, so its body (the `foldl` below, kept for fidelity)
runs zero times and the function always returns the empty track list. -/
def get_all_tracks (s : Ledger) (_args : List String) :
    Except String (List Track) :=
  match getState s trackIndexStr with
  | none => .error ("Failed to get " ++ trackIndexStr)
  | some b =>
    match unmarshalIndex b with
    | none => .error ("Failed to get " ++ trackIndexStr)
    | some _trackIndex =>
      let tracks : List Track := []
      let tracks :=
        tracks.foldl
          (fun acc (track : Track) =>
            let bytes := getState s track.Id
            let t := (bytes.bind unmarshalTrack).getD zeroTrack
            acc ++ [t])
          tracks
      .ok tracks

/-! ### Concrete fixtures used by the claim theorems -/

/-- Account A with no pending payments. -/
def accA : Account :=
  { Id := "A", Name := "Alice", Balance := 0, PendingPayments := [] }

/-- Account B with no pending payments. -/
def accB : Account :=
  { Id := "B", Name := "Bob", Balance := 0, PendingPayments := [] }

/-- The sender (player) account S. -/
def accS : Account :=
  { Id := "S", Name := "Sam", Balance := 0, PendingPayments := [] }

/-- A track with beneficiaries [(A,30),(B,70)] and price 100, the scenario
of the spec's worked example. -/
def trackT1 : Track :=
  { Id := "t1", Title := "Song", Artist := "Artist",
    Beneficiaries := [{ AccountId := "A", Percentage := 30 },
                      { AccountId := "B", Percentage := 70 }],
    Content := "c", Price := 100 }

/-- Ledger holding `trackT1` and the three accounts. -/
def ledgerC1 : Ledger :=
  [("t1", Bytes.trackB trackT1), ("A", Bytes.accountB accA),
   ("B", Bytes.accountB accB), ("S", Bytes.accountB accS)]

/-- The payment `register_track` actually constructs for beneficiary A:
amount 30 * 100 = 3000, not 30. -/
def payA : Payment :=
  { Recipient := "A", Sender := "S", Amount := 3000, Completed := false }

/-- The payment `register_track` actually constructs for beneficiary B:
amount 70 * 100 = 7000, not 70. -/
def payB : Payment :=
  { Recipient := "B", Sender := "S", Amount := 7000, Completed := false }

/-- Account A after one play of `trackT1`. -/
def accAPaid : Account :=
  { Id := "A", Name := "Alice", Balance := 0, PendingPayments := [payA] }

/-- Account B after one play of `trackT1`. -/
def accBPaid : Account :=
  { Id := "B", Name := "Bob", Balance := 0, PendingPayments := [payB] }

/-- The ledger produced by `register_track ledgerC1 ["t1", "S"]`: both
recipients are persisted with the unnormalized amounts, the sender record
is untouched. -/
def ledgerC1After : Ledger :=
  [("t1", Bytes.trackB trackT1), ("A", Bytes.accountB accAPaid),
   ("B", Bytes.accountB accBPaid), ("S", Bytes.accountB accS)]

/-- The ledger produced by replaying the same invocation on `ledgerC1After`:
every payment is appended a second time. -/
def ledgerC8After : Ledger :=
  [("t1", Bytes.trackB trackT1),
   ("A", Bytes.accountB
      { Id := "A", Name := "Alice", Balance := 0,
        PendingPayments := [payA, payA] }),
   ("B", Bytes.accountB
      { Id := "B", Name := "Bob", Balance := 0,
        PendingPayments := [payB, payB] }),
   ("S", Bytes.accountB accS)]

/-- A track whose second beneficiary references the account id "X", for
which no account record exists. -/
def trackT2 : Track :=
  { Id := "t2", Title := "Song2", Artist := "Artist",
    Beneficiaries := [{ AccountId := "A", Percentage := 30 },
                      { AccountId := "X", Percentage := 70 }],
    Content := "c", Price := 100 }

/-- Ledger holding `trackT2`, account A and the sender; the beneficiary
account "X" was never written. -/
def ledgerC2 : Ledger :=
  [("t2", Bytes.trackB trackT2), ("A", Bytes.accountB accA),
   ("S", Bytes.accountB accS)]

/-- The payment built for the missing beneficiary "X": the recipient is the
zero `Account`, so the recorded recipient id is the empty string. -/
def payX : Payment :=
  { Recipient := "", Sender := "S", Amount := 7000, Completed := false }

/-- The ledger `register_track ledgerC2 ["t2", "S"]` actually produces: no
error, account A (processed before the missing beneficiary) already
mutated, and a ghost account record persisted under the empty-string key. -/
def ledgerC2After : Ledger :=
  [("t2", Bytes.trackB trackT2), ("A", Bytes.accountB accAPaid),
   ("S", Bytes.accountB accS),
   ("", Bytes.accountB
      { Id := "", Name := "", Balance := 0, PendingPayments := [payX] })]

/-- The ledger produced by `Invoke` at "add_account": the id landed in the
`_tracks` index because the dispatcher routed the call to `add_track`. -/
def ledgerC4After : Ledger :=
  [(trackIndexStr, Bytes.indexB ["acc1"]), ("acc1", Bytes.rawB "payload")]

/-- Stored track 1 for the `get_all_tracks` scenario. -/
def trackX1 : Track :=
  { Id := "x1", Title := "T1", Artist := "a", Beneficiaries := [],
    Content := "", Price := 1 }

/-- Stored track 2 for the `get_all_tracks` scenario. -/
def trackX2 : Track :=
  { Id := "x2", Title := "T2", Artist := "a", Beneficiaries := [],
    Content := "", Price := 2 }

/-- Stored track 3 for the `get_all_tracks` scenario. -/
def trackX3 : Track :=
  { Id := "x3", Title := "T3", Artist := "a", Beneficiaries := [],
    Content := "", Price := 3 }

/-- Ledger after adding tracks x1, x2, x3 in that order: the `_tracks`
index lists them and each record is stored under its id. -/
def ledgerC7 : Ledger :=
  [(trackIndexStr, Bytes.indexB ["x1", "x2", "x3"]),
   ("x1", Bytes.trackB trackX1), ("x2", Bytes.trackB trackX2),
   ("x3", Bytes.trackB trackX3)]

/-! ### Ledger lemmas -/

lemma getState_putState_self (s : Ledger) (k : String) (v : Bytes) :
    getState (putState s k v) k = some v := by
  induction s with
  | nil => simp [putState, getState]
  | cons p rest ih =>
    obtain ⟨k', v'⟩ := p
    by_cases h : k' = k
    · simp [putState, h, getState]
    · simp [putState, h, getState, ih]

lemma getState_putState_ne (s : Ledger) {k k' : String} (v : Bytes)
    (h : k ≠ k') : getState (putState s k v) k' = getState s k' := by
  induction s with
  | nil => simp [putState, getState, h]
  | cons p rest ih =>
    obtain ⟨k'', v'⟩ := p
    by_cases h2 : k'' = k
    · subst h2
      simp [putState, getState, h, ih]
    · by_cases h3 : k'' = k'
      · simp [putState, getState, h2, h3, Ne.symm h]
      · simp [putState, getState, h2, h3, ih]

lemma indexList_putState_indexB (s : Ledger) (k : String) (l : List String) :
    indexList (putState s k (Bytes.indexB l)) k = l := by
  simp [indexList, getState_putState_self, unmarshalIndex]

/-! ### Decimal-representation lemmas: `Nat.repr` is injective -/

lemma digitChar_injOn :
    ∀ a, a < 10 → ∀ b, b < 10 → Nat.digitChar a = Nat.digitChar b → a = b := by
  decide

lemma div_lt_pow_aux {f n : Nat} (h : n < 10 ^ (f + 1)) : n / 10 < 10 ^ f := by
  refine (Nat.div_lt_iff_lt_mul (by norm_num)).mpr ?_
  calc n < 10 ^ (f + 1) := h
    _ = 10 ^ f * 10 := by rw [Nat.pow_succ]

lemma toDigitsCore_eq_digits :
    ∀ (f n : Nat) (acc : List Char), 0 < n → n < 10 ^ f →
      Nat.toDigitsCore 10 f n acc
        = ((Nat.digits 10 n).map Nat.digitChar).reverse ++ acc := by
  intro f
  induction f with
  | zero =>
    intro n acc hn hlt
    simp only [pow_zero] at hlt
    omega
  | succ f ih =>
    intro n acc hn hlt
    rw [Nat.toDigitsCore]
    by_cases hdiv : n / 10 = 0
    · have : Nat.digits 10 n = [n % 10] := by
        rw [Nat.digits_def' (by norm_num : (1:Nat) < 10) hn, hdiv]
        simp
      simp [hdiv, this]
    · rw [if_neg hdiv]
      rw [ih (n / 10) (Nat.digitChar (n % 10) :: acc) (Nat.pos_of_ne_zero hdiv)
        (div_lt_pow_aux hlt)]
      rw [Nat.digits_def' (by norm_num : (1:Nat) < 10) hn]
      simp

lemma toDigits_eq_digits (n : Nat) (hn : 0 < n) :
    Nat.toDigits 10 n = ((Nat.digits 10 n).map Nat.digitChar).reverse := by
  have h : n < 10 ^ (n + 1) := by
    calc n < 10 ^ n := Nat.lt_pow_self (by norm_num) n
      _ ≤ 10 ^ (n + 1) := Nat.pow_le_pow_right (by norm_num) (Nat.le_succ n)
  rw [Nat.toDigits, toDigitsCore_eq_digits (n + 1) n [] hn h, List.append_nil]

lemma map_digitChar_inj :
    ∀ (l1 l2 : List Nat), (∀ x ∈ l1, x < 10) → (∀ x ∈ l2, x < 10) →
      l1.map Nat.digitChar = l2.map Nat.digitChar → l1 = l2 := by
  intro l1
  induction l1 with
  | nil =>
    intro l2 _ _ h
    cases l2 with
    | nil => rfl
    | cons b t => simp at h
  | cons a t1 ih =>
    intro l2 h1 h2 h
    cases l2 with
    | nil => simp at h
    | cons b t2 =>
      simp only [List.map_cons, List.cons.injEq] at h
      have hab : a = b :=
        digitChar_injOn a (h1 a (by simp)) b (h2 b (by simp)) h.1
      have ht : t1 = t2 :=
        ih t2 (fun x hx => h1 x (by simp [hx]))
          (fun x hx => h2 x (by simp [hx])) h.2
      rw [hab, ht]

lemma digits_eq_of_map_digitChar_eq {m n : Nat}
    (h : (Nat.digits 10 m).map Nat.digitChar
        = (Nat.digits 10 n).map Nat.digitChar) : m = n := by
  have hdig : Nat.digits 10 m = Nat.digits 10 n :=
    map_digitChar_inj _ _
      (fun x hx => Nat.digits_lt_base (by norm_num) hx)
      (fun x hx => Nat.digits_lt_base (by norm_num) hx) h
  calc m = Nat.ofDigits 10 (Nat.digits 10 m) := (Nat.ofDigits_digits 10 m).symm
    _ = Nat.ofDigits 10 (Nat.digits 10 n) := by rw [hdig]
    _ = n := Nat.ofDigits_digits 10 n

lemma toDigits_pos_ne_zero {n : Nat} (hn : 0 < n)
    (h : Nat.toDigits 10 n = ['0']) : False := by
  rw [toDigits_eq_digits n hn] at h
  have hrev : (Nat.digits 10 n).map Nat.digitChar = ['0'] := by
    have := congrArg List.reverse h
    simpa using this
  have hdig : Nat.digits 10 n = [0] :=
    map_digitChar_inj (Nat.digits 10 n) [0]
      (fun x hx => Nat.digits_lt_base (by norm_num) hx)
      (by intro x hx; simp at hx; omega) hrev
  have hn0 : n = 0 := by
    have := Nat.ofDigits_digits 10 n
    rw [hdig] at this
    simpa [Nat.ofDigits] using this.symm
  omega

lemma repr_inj : ∀ {m n : Nat}, Nat.repr m = Nat.repr n → m = n := by
  intro m n h
  have hd : Nat.toDigits 10 m = Nat.toDigits 10 n := by
    have := congrArg String.data h
    simpa [Nat.repr] using this
  rcases Nat.eq_zero_or_pos m with hm | hm
  · rcases Nat.eq_zero_or_pos n with hn | hn
    · omega
    · exfalso
      subst hm
      exact toDigits_pos_ne_zero hn (by rw [← hd]; rfl)
  · rcases Nat.eq_zero_or_pos n with hn | hn
    · exfalso
      subst hn
      exact toDigits_pos_ne_zero hm (by rw [hd]; rfl)
    · rw [toDigits_eq_digits m hm, toDigits_eq_digits n hn] at hd
      refine digits_eq_of_map_digitChar_eq ?_
      have := congrArg List.reverse hd
      simpa using this

lemma string_append_cancel_left {a b c : String} (h : a ++ b = a ++ c) :
    b = c := by
  have hd := congrArg String.data h
  rw [String.data_append, String.data_append] at hd
  exact String.ext (List.append_cancel_left hd)

/-! ### Characterization of iterated `append_id` -/

lemma append_id_fst (s : Ledger) (k id : String) :
    (append_id s k id true).1 = id ++ Nat.repr ((indexList s k).length + 1) :=
  rfl

lemma append_id_snd_indexList (s : Ledger) (k id : String) (c : Bool) :
    indexList (append_id s k id c).2 k
      = indexList s k ++ [(append_id s k id c).1] := by
  simp only [append_id]
  rw [indexList_putState_indexB]

lemma appendN_spec (k id : String) :
    ∀ (n : Nat) (s : Ledger),
      (appendN s k id n).2
        = (List.range n).map
            (fun i => id ++ Nat.repr ((indexList s k).length + i + 1))
      ∧ indexList (appendN s k id n).1 k
        = indexList s k ++ (List.range n).map
            (fun i => id ++ Nat.repr ((indexList s k).length + i + 1)) := by
  intro n
  induction n with
  | zero =>
    intro s
    simp [appendN]
  | succ n ih =>
    intro s
    have hstep : indexList (append_id s k id true).2 k
        = indexList s k ++ [id ++ Nat.repr ((indexList s k).length + 1)] := by
      rw [append_id_snd_indexList, append_id_fst]
    have hlen : (indexList (append_id s k id true).2 k).length
        = (indexList s k).length + 1 := by
      rw [hstep]
      simp
    obtain ⟨ih1, ih2⟩ := ih (append_id s k id true).2
    rw [hlen] at ih1 ih2
    have hfun : ((fun i => id ++ Nat.repr ((indexList s k).length + i + 1))
          ∘ Nat.succ)
        = fun i => id ++ Nat.repr ((indexList s k).length + 1 + i + 1) := by
      funext i
      simp only [Function.comp]
      have : (indexList s k).length + Nat.succ i + 1
          = (indexList s k).length + 1 + i + 1 := by omega
      rw [this]
    constructor
    · show (append_id s k id true).1
          :: (appendN (append_id s k id true).2 k id n).2
        = (List.range (n + 1)).map
            (fun i => id ++ Nat.repr ((indexList s k).length + i + 1))
      rw [List.range_succ_eq_map, List.map_cons, List.map_map, hfun, ih1,
        append_id_fst]
    · show indexList (appendN (append_id s k id true).2 k id n).1 k
        = indexList s k ++ (List.range (n + 1)).map
            (fun i => id ++ Nat.repr ((indexList s k).length + i + 1))
      rw [ih2, hstep, List.range_succ_eq_map, List.map_cons, List.map_map,
        hfun, List.append_assoc, List.singleton_append]

/-! ### Claim theorems -/

/-- Claim C1.  The claim states that `register_track` computes each
beneficiary's amount as `percentage * price / 100`, recording payments of
30 to A and 70 to B for beneficiaries [(A,30),(B,70)] at price 100.  The
code multiplies without dividing by 100: evaluating `register_track` on
that exact scenario records amounts 3000 and 7000 (and the sender's stored
record receives nothing, see C3).  This contradicts the claim at its own
worked example, so the claim stands only against the spec's intended
(corrected) semantics: a code bug. -/
theorem C1_register_play_multiplies_without_normalizing :
    register_track ledgerC1 ["t1", "S"] = Except.ok ledgerC1After
    ∧ payA.Amount = 3000 ∧ payB.Amount = 7000
    ∧ ¬(payA.Amount = 30 ∧ payB.Amount = 70) :=
  ⟨rfl, rfl, rfl, by decide⟩

/-- Claim C2.  The claim states that `register_track` on a track with an
unknown beneficiary account fails with NotFound naming that beneficiary,
leaving earlier-processed beneficiary accounts unmutated.  In the code the
ledger read of a missing key reports no error and the unmarshal error is
discarded (line 361), so the call succeeds: account A — processed before
the missing beneficiary "X" — keeps its new payment, and a ghost account
built from the Go zero value is persisted under the empty-string key. -/
theorem C2_register_play_unknown_beneficiary_silently_succeeds :
    register_track ledgerC2 ["t2", "S"] = Except.ok ledgerC2After
    ∧ getState ledgerC2After "A" ≠ getState ledgerC2 "A"
    ∧ getState ledgerC2After ""
      = some (Bytes.accountB
          { Id := "", Name := "", Balance := 0, PendingPayments := [payX] }) :=
  ⟨rfl, by decide, rfl⟩

/-- Claim C3.  The claim states that after a successful `register_track`
every constructed payment is appended to the sender's `pendingPayments`
and the updated sender record is persisted.  The code appends the payments
only to the in-memory copy of the sender and contains no `PutState` for
the sender (the function ends, without even a return statement, right
after the in-memory append at line 387): after the successful call the
sender's stored record is byte-for-byte the original, with an empty
`pendingPayments`. -/
theorem C3_sender_account_never_persisted :
    register_track ledgerC1 ["t1", "S"] = Except.ok ledgerC1After
    ∧ getState ledgerC1After "S" = some (Bytes.accountB accS)
    ∧ accS.PendingPayments = [] :=
  ⟨rfl, rfl, rfl⟩

/-- Claim C4.  The claim states that invoking `add_account` appends the id
to the `_accounts` index and never mutates the `_tracks` index.  The
dispatcher (chaincode.go line 111) routes the invocation name
"add_account" to `add_track`, so the id is appended to `_tracks` and
`_accounts` stays absent; only the raw payload storage happens as
claimed. -/
theorem C4_add_account_dispatched_to_add_track :
    Invoke [] "add_account" ["acc1", "payload"] = Except.ok ledgerC4After
    ∧ getState ledgerC4After accountIndexStr = none
    ∧ getState ledgerC4After trackIndexStr = some (Bytes.indexB ["acc1"])
    ∧ getState ledgerC4After "acc1" = some (Bytes.rawB "payload") :=
  ⟨rfl, rfl, rfl, rfl⟩

/-- Claim C5.  `append_id` with `create = true` returns the candidate id
concatenated with the decimal string of (current index length + 1), and
iterating it `n` times on the same index key and candidate yields `n`
pairwise-distinct identifiers while the stored index length grows by
exactly `n`. -/
theorem C5_append_id_generate_unique_ids (s : Ledger) (k id : String)
    (n : Nat) :
    (append_id s k id true).1 = id ++ Nat.repr ((indexList s k).length + 1)
    ∧ ((appendN s k id n).2).Nodup
    ∧ ((appendN s k id n).2).length = n
    ∧ (indexList (appendN s k id n).1 k).length
      = (indexList s k).length + n := by
  refine ⟨append_id_fst s k id, ?_, ?_, ?_⟩
  · obtain ⟨h1, _⟩ := appendN_spec k id n s
    rw [h1]
    refine List.Nodup.map_on ?_ (List.nodup_range n)
    intro x _ y _ hxy
    have h2 := repr_inj (string_append_cancel_left hxy)
    omega
  · obtain ⟨h1, _⟩ := appendN_spec k id n s
    rw [h1]
    simp
  · obtain ⟨_, h2⟩ := appendN_spec k id n s
    rw [h2]
    simp

/-- Claim C6.  The claim states that `append_id` fails with DecodeError
when the stored index bytes do not parse as a list of identifiers.  The
code discards the unmarshal error (line 174): on undecodable index bytes
it succeeds, treats the index as empty, and overwrites the stored bytes
with a one-element index.  The absent-key half of the claim does hold: an
absent index key behaves as the empty list (second conjunct). -/
theorem C6_append_id_ignores_decode_failure :
    append_id [(accountIndexStr, Bytes.rawB "garbage")] accountIndexStr "x"
      false = ("x", [(accountIndexStr, Bytes.indexB ["x"])])
    ∧ append_id [] accountIndexStr "x" false
      = ("x", [(accountIndexStr, Bytes.indexB ["x"])]) :=
  ⟨rfl, rfl⟩

/-- Claim C7.  The claim states that `get_all_tracks` returns the stored
tracks in index order ([T1, T2, T3] after adding them in that order) and
treats an absent `_tracks` index as an empty result.  The loop at line 442
ranges over the still-empty result slice instead of the index, so on a
ledger with three indexed tracks the function returns the empty list; and
on an absent index the checked unmarshal of nil bytes fails, so the code
returns an error rather than an empty result. -/
theorem C7_get_all_tracks_returns_empty :
    get_all_tracks ledgerC7 [] = Except.ok []
    ∧ ([] : List Track) ≠ [trackX1, trackX2, trackX3]
    ∧ get_all_tracks [] [] = Except.error ("Failed to get " ++ trackIndexStr) :=
  ⟨rfl, by decide, rfl⟩

/-- Claim C8.  The claim states that re-invoking `register_track` with
identical arguments does not create duplicate payments.  The code
unconditionally appends a payment to each recipient on every invocation
(there is no transaction-scoped identifier anywhere in the source):
replaying the invocation of C1 on its own output ledger appends a second
identical payment to each beneficiary, so the pendingPayments of affected
accounts differ from those after the first invocation. -/
theorem C8_register_play_replay_duplicates_payments :
    register_track ledgerC1After ["t1", "S"] = Except.ok ledgerC8After
    ∧ getState ledgerC8After "A"
      = some (Bytes.accountB
          { Id := "A", Name := "Alice", Balance := 0,
            PendingPayments := [payA, payA] })
    ∧ getState ledgerC8After "A" ≠ getState ledgerC1After "A" :=
  ⟨rfl, rfl, by decide⟩

/-- Claim C9.  The claim states that `get_account` and `get_track` fail
with NotFound on a never-written identifier.  The ledger read of an absent
key reports no error and returns nil bytes, and both functions return
those bytes as a success: on the empty ledger (where no identifier was
ever written) both succeed with nil bytes instead of failing. -/
theorem C9_get_on_absent_key_succeeds_with_nil :
    get_account [] "ghost" = Except.ok none
    ∧ get_track [] ["get_track", "ghost"] = Except.ok none :=
  ⟨rfl, rfl⟩

/-- Claim C10.  `append_id` with `create = false` appends the caller's id
to the index verbatim with no duplicate check, and `add_track` stores the
payload under that id unconditionally: two `add_track` invocations with
the same id (distinct from the index key itself) leave the id twice in the
`_tracks` index and the second payload silently overwrites the first. -/
theorem C10_duplicate_id_appended_and_record_overwritten (s : Ledger)
    (id p1 p2 : String) (h : id ≠ trackIndexStr) :
    indexList (add_track (add_track s [id, p1]) [id, p2]) trackIndexStr
      = indexList s trackIndexStr ++ [id, id]
    ∧ getState (add_track s [id, p1]) id = some (Bytes.rawB p1)
    ∧ getState (add_track (add_track s [id, p1]) [id, p2]) id
      = some (Bytes.rawB p2) := by
  have key : ∀ (w : Ledger) (p : String),
      indexList (add_track w [id, p]) trackIndexStr
        = indexList w trackIndexStr ++ [id]
      ∧ getState (add_track w [id, p]) id = some (Bytes.rawB p) := by
    intro w p
    constructor
    · show indexList (putState (putState w trackIndexStr
          (Bytes.indexB (indexList w trackIndexStr ++ [id]))) id
          (Bytes.rawB p)) trackIndexStr = _
      simp only [indexList]
      rw [getState_putState_ne _ _ h, getState_putState_self]
      rfl
    · show getState (putState (putState w trackIndexStr
          (Bytes.indexB (indexList w trackIndexStr ++ [id]))) id
          (Bytes.rawB p)) id = _
      rw [getState_putState_self]
  obtain ⟨k1, k2⟩ := key s p1
  obtain ⟨k3, k4⟩ := key (add_track s [id, p1]) p2
  refine ⟨?_, k2, k4⟩
  rw [k3, k1, List.append_assoc]
  rfl

/-- Witness for claim C10 at a concrete input: a fresh ledger, id "t1",
payloads "a" then "b". -/
theorem C10_witness :
    "t1" ≠ trackIndexStr
    ∧ (indexList (add_track (add_track [] ["t1", "a"]) ["t1", "b"])
          trackIndexStr
        = indexList ([] : Ledger) trackIndexStr ++ ["t1", "t1"]
      ∧ getState (add_track [] ["t1", "a"]) "t1" = some (Bytes.rawB "a")
      ∧ getState (add_track (add_track [] ["t1", "a"]) ["t1", "b"]) "t1"
        = some (Bytes.rawB "b")) :=
  ⟨by decide,
   C10_duplicate_id_appended_and_record_overwritten [] "t1" "a" "b"
     (by decide)⟩

end AllMedia
